import Mathlib

/-!
Verification development for the artman configuration resolution engine
(`artman/config/loader.py`): parsing-independent resolution, validation and
path normalization of artifact configurations, together with the
user-preference loader.

The Python source operates on protobuf messages (`Artifact`, `Config`,
`UserConfig`) and POSIX path strings.  The embedding below models protobuf
messages as Lean structures with explicit field presence (per-field zero
values, matching proto3 presence semantics), POSIX path operations on the
character lists of strings (following CPython's `posixpath`), and every
fallible operation as an `Except` value whose error constructor records the
raise site of the source.
-/

deriving instance DecidableEq for Except

namespace Artman

/-- Embeds Python `s.startswith(pre)` for strings. -/
def strStartsWith (s pre : String) : Bool :=
  pre.data.isPrefixOf s.data

/-- Embeds Python `s.endswith(suf)` for strings. -/
def strEndsWith (s suf : String) : Bool :=
  suf.data.isSuffixOf s.data

/-- Substring containment on character lists: `sub` is a prefix of some
suffix of the list. -/
def charListContains (sub : List Char) : List Char → Bool
  | [] => sub.isPrefixOf []
  | c :: t => sub.isPrefixOf (c :: t) || charListContains sub t

/-- Embeds Python `sub in s` (substring containment) for strings. -/
def strContains (s sub : String) : Bool :=
  charListContains sub.data s.data

/-- Embeds Python `s[1:]` for strings (drop the first character). -/
def strTail (s : String) : String :=
  String.mk (s.data.drop 1)

/-- Embeds CPython `posixpath.isabs`: a path is absolute iff it starts
with a slash. -/
def posix_isabs (p : String) : Bool :=
  strStartsWith p "/"

/-- Embeds CPython `posixpath.dirname`: everything up to the final slash,
with trailing slashes stripped unless the head consists only of slashes. -/
def posix_dirname (p : String) : String :=
  let head := (p.data.reverse.dropWhile (fun c => c ≠ '/')).reverse
  if head.any (fun c => c ≠ '/') then
    String.mk ((head.reverse.dropWhile (fun c => c = '/')).reverse)
  else
    String.mk head

/-- Embeds CPython `posixpath.join(a, b)` for a single second component. -/
def posix_join (a b : String) : String :=
  if strStartsWith b "/" then b
  else if a = "" || strEndsWith a "/" then a ++ b
  else a ++ "/" ++ b

/-- Embeds CPython `posixpath.expanduser` restricted to the bare leading
`~` shorthand (the only form the spec mentions); `home` is the user's home
directory.  A `~user` form (no user database in scope) is returned
unchanged, as CPython does when the user is unknown. -/
def posix_expanduser (home path : String) : String :=
  if strStartsWith path "~" then
    if path = "~" then
      String.mk (home.data.reverse.dropWhile (fun c => c = '/')).reverse
    else if strStartsWith path "~/" then
      String.mk ((home.data.reverse.dropWhile (fun c => c = '/')).reverse
        ++ (strTail path).data)
    else path
  else path

example : posix_dirname "/home/u/conf/artman.yaml" = "/home/u/conf" := by decide
example : posix_dirname "a.yaml" = "" := by decide
example : posix_join "/home/u/conf" "protos/x.proto" = "/home/u/conf/protos/x.proto" := by decide
example : strContains "a/../b" "/.." = true := by decide
example : strContains "a..b" "/.." = false := by decide
example : posix_expanduser "/home/u" "~/.artman" = "/home/u/.artman" := by decide

/-!
## Data model

Modelled from the spec: the protobuf schema (`artman/config/proto/config.proto`
and `user_config.proto`) is not among the given sources, so the message types
are reconstructed from spec sections 3 and 6, with per-field presence tracked
explicitly (enum fields as `Option`, proto3 string/repeated fields by their
zero value `""` / `[]`), as section 9 of the spec prescribes.
-/

/-- Modelled from the spec: the enum of supported target languages
(`Artifact.Language` in the missing proto schema). -/
inductive Language
  | PYTHON | JAVA | GO | PHP | RUBY | CSHARP | NODEJS
deriving DecidableEq

/-- Modelled from the spec: the enum of artifact types (`Artifact.Type` in
the missing proto schema): gapic-client, GRPC-client, core-proto-bundle,
config-only. -/
inductive ArtifactType
  | GAPIC | GRPC | PROTOBUF | GAPIC_CONFIG
deriving DecidableEq

/-- Modelled from the spec: a named publish destination owned by one
artifact. -/
structure PublishTarget where
  name : String := ""
  repo_url : String := ""
  username : String := ""
  password : String := ""
  publish_env : String := ""
deriving DecidableEq

/-- Modelled from the spec: the `Artifact` protobuf message — a named
partial configuration.  Unset scalar string fields are `""` and unset enum
fields are `none` (explicit presence, per spec section 9); repeated fields
default to `[]`. -/
structure Artifact where
  name : String := ""
  language : Option Language := none
  type : Option ArtifactType := none
  service_yaml : String := ""
  gapic_yaml : String := ""
  src_proto_paths : List String := []
  publish_targets : List PublishTarget := []
deriving DecidableEq

/-- Modelled from the spec: the root `Config` protobuf message with the
shared `common` section and the ordered artifact sequence. -/
structure Config where
  common : Artifact := {}
  artifacts : List Artifact := []
deriving DecidableEq

/-- Modelled from the spec: the `UserConfig` protobuf message of personal
preferences — all fields optional with zero-value defaults. -/
structure UserConfig where
  repo_url : String := ""
  username : String := ""
  password : String := ""
  publish_env : String := ""
deriving DecidableEq

/-- The distinguishable error kinds of the loader (spec section 7); each
constructor corresponds to one raise site in `loader.py` and carries the
human-readable message built there. -/
inductive LoaderError
  | configNotFound (msg : String)
  | invalidConfig (msg : String)
  | invalidUserConfig (msg : String)
  | artifactNotFound (msg : String)
  | incompatibleArtifact (msg : String)
  | pathTraversalDisallowed (msg : String)
deriving DecidableEq

/-- A log line emitted through the process logger. -/
inductive LogEvent
  | warn (msg : String)
  | error (msg : String)
deriving DecidableEq

/-!
## Message formatting helpers (the `%` formats of `loader.py`)
-/

/-- Python `str()` of a list of strings, as produced by the `%s` formatting
of `valid_values` in `load_artifact_config`: each element wrapped in single
quotes, comma-space separated, in brackets (accurate for names without
quotes or escapes). -/
def pyReprStrList (l : List String) : String :=
  let sq := String.mk [Char.ofNat 39]
  "[" ++ String.intercalate ", " (l.map (fun s => sq ++ s ++ sq)) ++ "]"

/-- The duplicate-artifact message of `_validate_artman_config`. -/
def dupArtifactMsg (name : String) : String :=
  "artifact `" ++ name ++ "` has been configured twice, please rename."

/-- The duplicate-publish-target message of `_validate_artman_config`. -/
def dupTargetMsg (target_name artifact_name : String) : String :=
  "publish target `" ++ target_name ++ "` in artifact `" ++ artifact_name ++
    "` has been configured twice, please rename."

/-- The traversal-rejection message of `_normalize_path`. -/
def pathTraversalMsg (fieldName artman_config_path : String) : String :=
  "\"..\" is disallowed in `" ++ fieldName ++ "` field of `" ++
    artman_config_path ++ "`. Please use either a path relative to `" ++
    posix_dirname artman_config_path ++
    "` (preferred), or an absolute path."

/-- The not-found message of `load_artifact_config`. -/
def artifactNotFoundMsg (artifact_name : String) (valid_values : List String) :
    String :=
  "No artifact with `" ++ artifact_name ++
    "` configured in artman yaml. Valid values are " ++
    pyReprStrList valid_values

/-- The invalid-user-config message logged by `read_user_config`
(`INVALID_USER_CONFIG_ERROR_MESSAGE_FORMAT`). -/
def invalidUserConfigMsg (path : String) : String :=
  "Artman user YAML " ++ path ++ " is invalid."

/-!
## Operations of `loader.py`
-/

/-- Embeds the protobuf merge performed at `loader.py:43` and
`loader.py:48` (`artifact_config.CopyFrom(artman_config.common)` followed by
`artifact_config.MergeFrom(artifact)`): per the protobuf library's
documented `MergeFrom` semantics, scalar fields that are set (non-default)
on the source overwrite the destination's, unset fields keep the
destination's value, and repeated fields are appended — the source's
elements are concatenated after the destination's. -/
def mergeFrom (dst src : Artifact) : Artifact where
  name := if src.name ≠ "" then src.name else dst.name
  language := if src.language.isSome then src.language else dst.language
  type := if src.type.isSome then src.type else dst.type
  service_yaml :=
    if src.service_yaml ≠ "" then src.service_yaml else dst.service_yaml
  gapic_yaml :=
    if src.gapic_yaml ≠ "" then src.gapic_yaml else dst.gapic_yaml
  src_proto_paths := dst.src_proto_paths ++ src.src_proto_paths
  publish_targets := dst.publish_targets ++ src.publish_targets

/-- Embeds the inner loop of `_validate_artman_config` (`loader.py:123-128`):
walk one artifact's publish targets with the set of names already seen
(modelled as a list; membership is exact string equality), returning the
duplicate-target message at the first repeated name. -/
def validate_publish_targets (artifact_name : String) :
    List PublishTarget → List String → Option String
  | [], _ => none
  | target :: rest, targets =>
    if target.name ∈ targets then
      some (dupTargetMsg target.name artifact_name)
    else
      validate_publish_targets artifact_name rest (target.name :: targets)

/-- Embeds the outer loop of `_validate_artman_config` (`loader.py:116-128`):
walk the artifacts with the set of artifact names already seen, returning
the duplicate-artifact message at the first repeated artifact name, else the
first duplicate-target message inside the current artifact. -/
def validate_artifacts_loop : List Artifact → List String → Option String
  | [], _ => none
  | artifact :: rest, artifacts =>
    if artifact.name ∈ artifacts then
      some (dupArtifactMsg artifact.name)
    else
      match validate_publish_targets artifact.name artifact.publish_targets [] with
      | some msg => some msg
      | none => validate_artifacts_loop rest (artifact.name :: artifacts)

/-- Embeds `_validate_artman_config` (`loader.py:109-130`): returns the
first violation's message in document order, artifact check before target
check, or `none` when the document is valid. -/
def validate_artman_config (config_pb : Config) : Option String :=
  validate_artifacts_loop config_pb.artifacts []

/-- Embeds `_validate_artifact_config` (`loader.py:133-138`): rejects the
`NODEJS` language combined with the `GRPC` artifact type. -/
def validate_artifact_config (artifact_config : Artifact) :
    Except LoaderError Unit :=
  if artifact_config.language = some Language.NODEJS ∧
      artifact_config.type = some ArtifactType.GRPC then
    .error (.incompatibleArtifact "GRPC artifact type is invalid for NodeJS.")
  else
    .ok ()

/-- Embeds `_normalize_path` (`loader.py:177-188`): reject `..` traversal
(a path starting with `..` or containing `/..`), keep absolute paths
unchanged, and resolve relative paths against the directory containing the
artman config document. -/
def normalize_path (path artman_config_path fieldName : String) :
    Except LoaderError String :=
  if strStartsWith path ".." || strContains path "/.." then
    .error (.pathTraversalDisallowed (pathTraversalMsg fieldName artman_config_path))
  else if posix_isabs path then
    .ok path
  else
    .ok (posix_join (posix_dirname artman_config_path) path)

/-- Embeds the per-entry rewriting of the `src_proto_paths` loop body of
`_normalize_artifact_config` (`loader.py:160-171`): an entry with the
exclusion marker `-` has its remainder normalized and the marker
re-prepended; any other entry is normalized whole. -/
def normalize_src_proto_path (src_proto_path artman_config_path : String) :
    Except LoaderError String :=
  if strStartsWith src_proto_path "-" then
    match normalize_path (strTail src_proto_path) artman_config_path
        "src_proto_paths" with
    | .error e => .error e
    | .ok n => .ok ("-" ++ n)
  else
    normalize_path src_proto_path artman_config_path "src_proto_paths"

/-- Embeds the `src_proto_paths` loop of `_normalize_artifact_config`
(`loader.py:159-172`): rewrite each entry in order, the first failure
propagating. -/
def normalize_src_proto_paths_loop (artman_config_path : String) :
    List String → Except LoaderError (List String)
  | [] => .ok []
  | src_proto_path :: rest =>
    match normalize_src_proto_path src_proto_path artman_config_path with
    | .error e => .error e
    | .ok n =>
      match normalize_src_proto_paths_loop artman_config_path rest with
      | .error e => .error e
      | .ok ns => .ok (n :: ns)

/-- Embeds `_normalize_artifact_config` (`loader.py:141-174`): normalize
`service_yaml` and `gapic_yaml` when set (Python truthiness: non-empty),
then rewrite the whole `src_proto_paths` sequence. -/
def normalize_artifact_config (artifact_config : Artifact)
    (artman_config_path : String) : Except LoaderError Artifact :=
  match (if artifact_config.service_yaml ≠ "" then
      normalize_path artifact_config.service_yaml artman_config_path
        "service_yaml"
    else .ok artifact_config.service_yaml) with
  | .error e => .error e
  | .ok sy =>
    match (if artifact_config.gapic_yaml ≠ "" then
        normalize_path artifact_config.gapic_yaml artman_config_path
          "gapic_yaml"
      else .ok artifact_config.gapic_yaml) with
    | .error e => .error e
    | .ok gy =>
      match normalize_src_proto_paths_loop artman_config_path
          artifact_config.src_proto_paths with
      | .error e => .error e
      | .ok spp =>
        .ok { artifact_config with
              service_yaml := sy, gapic_yaml := gy, src_proto_paths := spp }

/-- Embeds the artifact scan loop of `load_artifact_config`
(`loader.py:44-55`): collect each artifact's name into `valid_values`, and
on the first name match merge it onto the copy of `common`, validate and
normalize the merged result; when the scan ends without a match, fail with
the not-found message enumerating the collected names. -/
def artifact_scan (common : Artifact) (artman_config_path artifact_name : String) :
    List Artifact → List String → Except LoaderError Artifact
  | [], valid_values =>
    .error (.artifactNotFound (artifactNotFoundMsg artifact_name valid_values))
  | artifact :: rest, valid_values =>
    let valid_values := valid_values ++ [artifact.name]
    if artifact.name = artifact_name then
      match validate_artifact_config (mergeFrom common artifact) with
      | .error e => .error e
      | .ok _ =>
        normalize_artifact_config (mergeFrom common artifact) artman_config_path
    else
      artifact_scan common artman_config_path artifact_name rest valid_values

/-- Embeds `load_artifact_config` (`loader.py:40-55`) applied to the parsed
document: file reading and YAML/protobuf deserialization (`_parse`) are
external I/O and are abstracted by taking the parsed `Config` as input; as
in `_read_artman_config` (`loader.py:80-87`), a non-null document-validation
result is raised as `InvalidConfig` before any artifact-level work. -/
def load_artifact_config (artman_config : Config)
    (artman_config_path artifact_name : String) : Except LoaderError Artifact :=
  match validate_artman_config artman_config with
  | some msg => .error (.invalidConfig msg)
  | none =>
    artifact_scan artman_config.common artman_config_path artifact_name
      artman_config.artifacts []

/-- Parse outcome of the user-preference file, abstracting the filesystem
probe (`os.path.isfile`) and the YAML/JSON/protobuf parsing stack of
`read_user_config`, which are external to the embedded code: a path maps to
an absent file, a present-but-malformed file, or a file parsing to a
`UserConfig`. -/
inductive UserFile
  | absent
  | malformed
  | wellFormed (cfg : UserConfig)
deriving DecidableEq

/-- Embeds `read_user_config` (`loader.py:58-78`) over the abstract
filesystem `fs` and home directory `home`: expand the leading
home-directory shorthand first; a missing file logs a warning and returns
the default-valued `UserConfig`; a malformed file logs the invalid-config
error and fails with `InvalidUserConfig`; returns the parsed config (and
the emitted log events) otherwise. -/
def read_user_config (fs : String → UserFile) (home : String)
    (artman_user_config_path : String) :
    Except LoaderError UserConfig × List LogEvent :=
  let artman_user_config_path := posix_expanduser home artman_user_config_path
  match fs artman_user_config_path with
  | .absent =>
    (.ok {},
      [.warn ("No artman user config defined. Use the default one for this " ++
        "execution. Run `configure-artman` to set up user config.")])
  | .malformed =>
    (.error (.invalidUserConfig (invalidUserConfigMsg artman_user_config_path)),
      [.error (invalidUserConfigMsg artman_user_config_path)])
  | .wellFormed cfg => (.ok cfg, [])

/-!
Executable sanity checks of the embedding on the concrete inputs of the
spec's scenario section.
-/

example :
    load_artifact_config
      { common := { language := some Language.PYTHON },
        artifacts := [{ name := "foo", type := some ArtifactType.GRPC,
                        src_proto_paths := ["protos/x.proto", "-protos/y.proto"] }] }
      "/home/u/conf/artman.yaml" "foo" =
    .ok { name := "foo", language := some Language.PYTHON,
          type := some ArtifactType.GRPC,
          src_proto_paths := ["/home/u/conf/protos/x.proto",
                              "-/home/u/conf/protos/y.proto"] } := by decide

example :
    (load_artifact_config
      { common := { src_proto_paths := ["/p/a.proto"] },
        artifacts := [{ name := "foo", src_proto_paths := ["/q/b.proto"] }] }
      "/c/a.yaml" "foo").map Artifact.src_proto_paths =
    .ok ["/p/a.proto", "/q/b.proto"] := by decide

example :
    load_artifact_config
      { artifacts := [{ name := "a" }, { name := "b" }, { name := "c" }] }
      "/c/a.yaml" "x" =
    .error (.artifactNotFound (artifactNotFoundMsg "x" ["a", "b", "c"])) := by decide

example :
    validate_artman_config
      { artifacts := [{ name := "a" }, { name := "a" }] } =
    some (dupArtifactMsg "a") := by decide

example :
    validate_artman_config
      { artifacts := [{ name := "a",
                        publish_targets := [{ name := "t" }, { name := "t" }] }] } =
    some (dupTargetMsg "t" "a") := by decide

example :
    normalize_path "../x" "/c/a.yaml" "service_yaml" =
    .error (.pathTraversalDisallowed (pathTraversalMsg "service_yaml" "/c/a.yaml")) := by decide

example : normalize_path "a..b" "/c/a.yaml" "f" = .ok "/c/a..b" := by decide

example :
    read_user_config (fun _ => UserFile.absent) "/home/u" "~/.artman" =
    (.ok {}, [.warn ("No artman user config defined. Use the default one for this " ++
        "execution. Run `configure-artman` to set up user config.")]) := by decide

/-!
## Theorems
-/

/-- C1 (counterexample): with `common.src_proto_paths = ["/p/a.proto"]` and
the override `foo` carrying `src_proto_paths = ["/q/b.proto"]`, resolution
returns the concatenation `["/p/a.proto", "/q/b.proto"]`, not the
override's sequence as a whole replacement. -/
theorem load_artifact_config_repeated_replacement_counterexample :
    (load_artifact_config
      { common := { src_proto_paths := ["/p/a.proto"] },
        artifacts := [{ name := "foo", src_proto_paths := ["/q/b.proto"] }] }
      "/c/a.yaml" "foo").map Artifact.src_proto_paths =
      .ok ["/p/a.proto", "/q/b.proto"] ∧
    (Except.ok ["/p/a.proto", "/q/b.proto"] :
        Except LoaderError (List String)) ≠ .ok ["/q/b.proto"] := by
  exact ⟨by decide, by decide⟩

/-- C1 (amended): the merge step of resolution (`CopyFrom` of `common`
followed by `MergeFrom` of the override) gives every scalar field set on
the override the override's value, gives every field set only on `common`
the value of `common`, and gives every repeated field (`src_proto_paths`,
`publish_targets`) the concatenation of `common`'s sequence followed by the
override's sequence (protobuf `MergeFrom` appends repeated fields rather
than replacing them). -/
theorem mergeFrom_last_write_wins_append (c o : Artifact) :
    (mergeFrom c o).src_proto_paths = c.src_proto_paths ++ o.src_proto_paths ∧
    (mergeFrom c o).publish_targets = c.publish_targets ++ o.publish_targets ∧
    (o.name ≠ "" → (mergeFrom c o).name = o.name) ∧
    (o.name = "" → (mergeFrom c o).name = c.name) ∧
    (o.language.isSome = true → (mergeFrom c o).language = o.language) ∧
    (o.language = none → (mergeFrom c o).language = c.language) ∧
    (o.type.isSome = true → (mergeFrom c o).type = o.type) ∧
    (o.type = none → (mergeFrom c o).type = c.type) ∧
    (o.service_yaml ≠ "" → (mergeFrom c o).service_yaml = o.service_yaml) ∧
    (o.service_yaml = "" → (mergeFrom c o).service_yaml = c.service_yaml) ∧
    (o.gapic_yaml ≠ "" → (mergeFrom c o).gapic_yaml = o.gapic_yaml) ∧
    (o.gapic_yaml = "" → (mergeFrom c o).gapic_yaml = c.gapic_yaml) := by
  refine ⟨rfl, rfl, ?_, ?_, ?_, ?_, ?_, ?_, ?_, ?_, ?_, ?_⟩ <;>
    intro h <;> simp [mergeFrom, h]

/-- C1 (witness): the amended merge semantics evaluated at a concrete
common section and override. -/
theorem mergeFrom_last_write_wins_append_witness :
    (({ name := "bar", language := some Language.JAVA,
        src_proto_paths := ["/q/b.proto"] } : Artifact).name ≠ "") ∧
    (mergeFrom
      { language := some Language.PYTHON, service_yaml := "/s.yaml",
        src_proto_paths := ["/p/a.proto"] }
      { name := "bar", language := some Language.JAVA,
        src_proto_paths := ["/q/b.proto"] }).name = "bar" ∧
    (mergeFrom
      { language := some Language.PYTHON, service_yaml := "/s.yaml",
        src_proto_paths := ["/p/a.proto"] }
      { name := "bar", language := some Language.JAVA,
        src_proto_paths := ["/q/b.proto"] }).src_proto_paths =
      ["/p/a.proto", "/q/b.proto"] :=
  ⟨by decide,
    (mergeFrom_last_write_wins_append
      { language := some Language.PYTHON, service_yaml := "/s.yaml",
        src_proto_paths := ["/p/a.proto"] }
      { name := "bar", language := some Language.JAVA,
        src_proto_paths := ["/q/b.proto"] }).2.2.1 (by decide),
    (mergeFrom_last_write_wins_append
      { language := some Language.PYTHON, service_yaml := "/s.yaml",
        src_proto_paths := ["/p/a.proto"] }
      { name := "bar", language := some Language.JAVA,
        src_proto_paths := ["/q/b.proto"] }).1⟩

/-- C6: artifact-level validation fails (with the `IncompatibleArtifact`
error carrying the source's message) exactly when the merged config has
language `NODEJS` and type `GRPC`; no other combination of fields is
rejected. -/
theorem validate_artifact_config_iff_nodejs_grpc (a : Artifact) :
    ((∃ e, validate_artifact_config a = .error e) ↔
      (a.language = some Language.NODEJS ∧ a.type = some ArtifactType.GRPC)) ∧
    (a.language = some Language.NODEJS → a.type = some ArtifactType.GRPC →
      validate_artifact_config a =
        .error (.incompatibleArtifact "GRPC artifact type is invalid for NodeJS.")) := by
  unfold validate_artifact_config
  by_cases h : a.language = some Language.NODEJS ∧ a.type = some ArtifactType.GRPC
  · rw [if_pos h]
    exact ⟨⟨fun _ => h, fun _ => ⟨_, rfl⟩⟩, fun _ _ => rfl⟩
  · rw [if_neg h]
    refine ⟨⟨fun ⟨e, he⟩ => absurd he (by simp), fun hh => absurd hh h⟩, ?_⟩
    intro h1 h2
    exact absurd ⟨h1, h2⟩ h

/-- C6 (witness): a `NODEJS`/`GRPC` artifact with other fields populated is
rejected with the `IncompatibleArtifact` message. -/
theorem validate_artifact_config_iff_nodejs_grpc_witness :
    ({ name := "x", language := some Language.NODEJS,
       type := some ArtifactType.GRPC, service_yaml := "/s.yaml",
       src_proto_paths := ["/p"] } : Artifact).language = some Language.NODEJS ∧
    validate_artifact_config
      { name := "x", language := some Language.NODEJS,
        type := some ArtifactType.GRPC, service_yaml := "/s.yaml",
        src_proto_paths := ["/p"] } =
      .error (.incompatibleArtifact "GRPC artifact type is invalid for NodeJS.") :=
  ⟨by decide,
    (validate_artifact_config_iff_nodejs_grpc
      { name := "x", language := some Language.NODEJS,
        type := some ArtifactType.GRPC, service_yaml := "/s.yaml",
        src_proto_paths := ["/p"] }).2 (by decide) (by decide)⟩

/-- C7: on an absolute path free of traversal (`..` prefix or `/..`
substring), `_normalize_path` is the identity for every config document
path and field name, and re-applying it to its own output again returns the
path. -/
theorem normalize_path_idempotent (path acp f acp2 f2 : String)
    (habs : posix_isabs path = true)
    (h1 : strStartsWith path ".." = false)
    (h2 : strContains path "/.." = false) :
    normalize_path path acp f = .ok path ∧
    (normalize_path path acp f).bind (fun q => normalize_path q acp2 f2) =
      .ok path := by
  have hok : ∀ a ff, normalize_path path a ff = .ok path := by
    intro a ff
    unfold normalize_path
    rw [h1, h2]
    simp [habs]
  refine ⟨hok acp f, ?_⟩
  rw [hok acp f]
  simpa using hok acp2 f2

/-- C7 (witness): idempotence evaluated at the absolute path `/a/b`. -/
theorem normalize_path_idempotent_witness :
    posix_isabs "/a/b" = true ∧ strStartsWith "/a/b" ".." = false ∧
    strContains "/a/b" "/.." = false ∧
    normalize_path "/a/b" "/c/x.yaml" "service_yaml" = .ok "/a/b" ∧
    (normalize_path "/a/b" "/c/x.yaml" "service_yaml").bind
      (fun q => normalize_path q "/d/y.yaml" "gapic_yaml") = .ok "/a/b" :=
  ⟨by decide, by decide, by decide,
    (normalize_path_idempotent "/a/b" "/c/x.yaml" "service_yaml" "/d/y.yaml"
      "gapic_yaml" (by decide) (by decide) (by decide)).1,
    (normalize_path_idempotent "/a/b" "/c/x.yaml" "service_yaml" "/d/y.yaml"
      "gapic_yaml" (by decide) (by decide) (by decide)).2⟩

/-- C8: the user-preference loader first expands the leading home-directory
shorthand; an absent file at the expanded path never fails — it logs a
warning and returns the default-valued `UserConfig` — while a
present-but-malformed file logs an error and fails with
`InvalidUserConfig`; a well-formed file parses cleanly. -/
theorem read_user_config_spec (fs : String → UserFile) (home path : String) :
    (fs (posix_expanduser home path) = .absent →
      read_user_config fs home path =
        (.ok {},
          [.warn ("No artman user config defined. Use the default one for this " ++
            "execution. Run `configure-artman` to set up user config.")])) ∧
    (fs (posix_expanduser home path) = .malformed →
      read_user_config fs home path =
        (.error (.invalidUserConfig (invalidUserConfigMsg (posix_expanduser home path))),
          [.error (invalidUserConfigMsg (posix_expanduser home path))])) ∧
    (∀ cfg, fs (posix_expanduser home path) = .wellFormed cfg →
      read_user_config fs home path = (.ok cfg, [])) := by
  refine ⟨?_, ?_, ?_⟩
  · intro h; simp [read_user_config, h]
  · intro h; simp [read_user_config, h]
  · intro cfg h; simp [read_user_config, h]

/-- C8 (witness): a filesystem with no file at the expanded path
`/home/u/.artman` makes the loader return the default config with a
warning and no failure. -/
theorem read_user_config_spec_witness :
    (fun p => if p = "/home/u/.artman" then UserFile.absent else UserFile.malformed)
        (posix_expanduser "/home/u" "~/.artman") = .absent ∧
    read_user_config
      (fun p => if p = "/home/u/.artman" then UserFile.absent else UserFile.malformed)
      "/home/u" "~/.artman" =
      (.ok {},
        [.warn ("No artman user config defined. Use the default one for this " ++
          "execution. Run `configure-artman` to set up user config.")]) :=
  ⟨by decide,
    (read_user_config_spec
      (fun p => if p = "/home/u/.artman" then UserFile.absent else UserFile.malformed)
      "/home/u" "~/.artman").1 (by decide)⟩

/-- C9: on success, `_normalize_artifact_config` changes at most
`service_yaml`, `gapic_yaml` and `src_proto_paths`: the name, language,
type and publish targets of the merged config are returned unchanged. -/
theorem normalize_artifact_config_frame (a : Artifact) (p : String)
    (b : Artifact) (h : normalize_artifact_config a p = .ok b) :
    b.name = a.name ∧ b.language = a.language ∧ b.type = a.type ∧
    b.publish_targets = a.publish_targets := by
  unfold normalize_artifact_config at h
  split at h
  · exact absurd h (by simp)
  · split at h
    · exact absurd h (by simp)
    · split at h
      · exact absurd h (by simp)
      · injection h with h
        subst h
        exact ⟨rfl, rfl, rfl, rfl⟩

/-- C9 (witness): the frame property evaluated on a concrete artifact with
every field populated. -/
theorem normalize_artifact_config_frame_witness :
    normalize_artifact_config
      { name := "foo", language := some Language.PYTHON,
        type := some ArtifactType.GRPC, service_yaml := "s.yaml",
        gapic_yaml := "/g.yaml", src_proto_paths := ["p", "-q"],
        publish_targets := [{ name := "t" }] } "/c/a.yaml" =
      .ok { name := "foo", language := some Language.PYTHON,
            type := some ArtifactType.GRPC, service_yaml := "/c/s.yaml",
            gapic_yaml := "/g.yaml", src_proto_paths := ["/c/p", "-/c/q"],
            publish_targets := [{ name := "t" }] } ∧
    ({ name := "foo", language := some Language.PYTHON,
       type := some ArtifactType.GRPC, service_yaml := "/c/s.yaml",
       gapic_yaml := "/g.yaml", src_proto_paths := ["/c/p", "-/c/q"],
       publish_targets := [{ name := "t" }] } : Artifact).name = "foo" ∧
    ({ name := "foo", language := some Language.PYTHON,
       type := some ArtifactType.GRPC, service_yaml := "/c/s.yaml",
       gapic_yaml := "/g.yaml", src_proto_paths := ["/c/p", "-/c/q"],
       publish_targets := [{ name := "t" }] } : Artifact).publish_targets =
      [{ name := "t" }] :=
  ⟨by decide,
    (normalize_artifact_config_frame
      { name := "foo", language := some Language.PYTHON,
        type := some ArtifactType.GRPC, service_yaml := "s.yaml",
        gapic_yaml := "/g.yaml", src_proto_paths := ["p", "-q"],
        publish_targets := [{ name := "t" }] } "/c/a.yaml"
      { name := "foo", language := some Language.PYTHON,
        type := some ArtifactType.GRPC, service_yaml := "/c/s.yaml",
        gapic_yaml := "/g.yaml", src_proto_paths := ["/c/p", "-/c/q"],
        publish_targets := [{ name := "t" }] } (by decide)).1,
    (normalize_artifact_config_frame
      { name := "foo", language := some Language.PYTHON,
        type := some ArtifactType.GRPC, service_yaml := "s.yaml",
        gapic_yaml := "/g.yaml", src_proto_paths := ["p", "-q"],
        publish_targets := [{ name := "t" }] } "/c/a.yaml"
      { name := "foo", language := some Language.PYTHON,
        type := some ArtifactType.GRPC, service_yaml := "/c/s.yaml",
        gapic_yaml := "/g.yaml", src_proto_paths := ["/c/p", "-/c/q"],
        publish_targets := [{ name := "t" }] } (by decide)).2.2.2⟩

/-- C2: `_normalize_path` fails with `PathTraversalDisallowed` — its
message naming the field, the config document path and the permitted base
directory — if and only if the path starts with `..` or contains the
substring `/..`; otherwise an absolute path is returned unchanged and a
relative path is joined to the config document's containing directory. -/
theorem normalize_path_spec (path acp fieldName : String) :
    ((strStartsWith path ".." = true ∨ strContains path "/.." = true) →
      normalize_path path acp fieldName =
        .error (.pathTraversalDisallowed (pathTraversalMsg fieldName acp)) ∧
      fieldName.data <:+: (pathTraversalMsg fieldName acp).data ∧
      acp.data <:+: (pathTraversalMsg fieldName acp).data ∧
      (posix_dirname acp).data <:+: (pathTraversalMsg fieldName acp).data) ∧
    (strStartsWith path ".." = false → strContains path "/.." = false →
      (posix_isabs path = true → normalize_path path acp fieldName = .ok path) ∧
      (posix_isabs path = false →
        normalize_path path acp fieldName =
          .ok (posix_join (posix_dirname acp) path))) ∧
    ((∃ e, normalize_path path acp fieldName = .error e) ↔
      (strStartsWith path ".." = true ∨ strContains path "/.." = true)) := by
  have hmsg1 : pathTraversalMsg fieldName acp =
      "\"..\" is disallowed in `" ++ fieldName ++
        ("` field of `" ++ acp ++ "`. Please use either a path relative to `" ++
          posix_dirname acp ++ "` (preferred), or an absolute path.") := by
    simp [pathTraversalMsg, String.append_assoc]
  have hmsg2 : pathTraversalMsg fieldName acp =
      ("\"..\" is disallowed in `" ++ fieldName ++ "` field of `") ++ acp ++
        ("`. Please use either a path relative to `" ++ posix_dirname acp ++
          "` (preferred), or an absolute path.") := by
    simp [pathTraversalMsg, String.append_assoc]
  have hmsg3 : pathTraversalMsg fieldName acp =
      ("\"..\" is disallowed in `" ++ fieldName ++ "` field of `" ++ acp ++
          "`. Please use either a path relative to `") ++ posix_dirname acp ++
        "` (preferred), or an absolute path." := by
    simp [pathTraversalMsg, String.append_assoc]
  refine ⟨?_, ?_, ?_⟩
  · intro h
    have hcond : (strStartsWith path ".." || strContains path "/..") = true := by
      rcases h with h | h <;> simp [h]
    refine ⟨?_, ?_, ?_, ?_⟩
    · unfold normalize_path
      rw [hcond]
      simp
    · rw [hmsg1, String.data_append, String.data_append]
      exact List.infix_append _ _ _
    · rw [hmsg2, String.data_append, String.data_append]
      exact List.infix_append _ _ _
    · rw [hmsg3, String.data_append, String.data_append]
      exact List.infix_append _ _ _
  · intro h1 h2
    have hcond : (strStartsWith path ".." || strContains path "/..") = false := by
      simp [h1, h2]
    constructor
    · intro habs
      unfold normalize_path
      rw [hcond]
      simp [habs]
    · intro habs
      unfold normalize_path
      rw [hcond]
      simp [habs]
  · constructor
    · rintro ⟨e, he⟩
      by_contra hc
      push_neg at hc
      obtain ⟨h1, h2⟩ := hc
      simp only [ne_eq, Bool.not_eq_true] at h1 h2
      have hcond : (strStartsWith path ".." || strContains path "/..") = false := by
        simp [h1, h2]
      unfold normalize_path at he
      rw [hcond] at he
      by_cases habs : posix_isabs path = true <;> simp [habs] at he
    · intro h
      have hcond : (strStartsWith path ".." || strContains path "/..") = true := by
        rcases h with h | h <;> simp [h]
      refine ⟨.pathTraversalDisallowed (pathTraversalMsg fieldName acp), ?_⟩
      unfold normalize_path
      rw [hcond]
      simp

/-- C2 (witness): the traversal path `../x` is rejected with a message
naming field, config path and base directory, and the traversal-free
relative path `a..b` is accepted and joined to the config directory. -/
theorem normalize_path_spec_witness :
    (strStartsWith "../x" ".." = true ∨ strContains "../x" "/.." = true) ∧
    normalize_path "../x" "/c/a.yaml" "service_yaml" =
      .error (.pathTraversalDisallowed (pathTraversalMsg "service_yaml" "/c/a.yaml")) ∧
    strStartsWith "a..b" ".." = false ∧ strContains "a..b" "/.." = false ∧
    posix_isabs "a..b" = false ∧
    normalize_path "a..b" "/c/a.yaml" "gapic_yaml" =
      .ok (posix_join (posix_dirname "/c/a.yaml") "a..b") :=
  ⟨Or.inl (by decide),
    ((normalize_path_spec "../x" "/c/a.yaml" "service_yaml").1
      (Or.inl (by decide))).1,
    by decide, by decide, by decide,
    ((normalize_path_spec "a..b" "/c/a.yaml" "gapic_yaml").2.1
      (by decide) (by decide)).2 (by decide)⟩

/-- The artifact scan on a document containing no artifact with the
requested name reaches the end of the list having appended every scanned
name to `valid_values`, and fails with the not-found message enumerating
the accumulated names. -/
theorem artifact_scan_not_found (common : Artifact) (p nm : String) :
    ∀ (arts : List Artifact) (acc : List String),
      (∀ a ∈ arts, a.name ≠ nm) →
      artifact_scan common p nm arts acc =
        .error (.artifactNotFound
          (artifactNotFoundMsg nm (acc ++ arts.map Artifact.name))) := by
  intro arts
  induction arts with
  | nil => intro acc _; simp [artifact_scan]
  | cons a rest ih =>
    intro acc hne
    have ha : a.name ≠ nm := hne a (by simp)
    have hrest : ∀ a ∈ rest, Artifact.name a ≠ nm := by
      intro x hx; exact hne x (by simp [hx])
    unfold artifact_scan
    simp only [ha, if_false, ite_false]
    rw [ih (acc ++ [a.name]) hrest]
    simp

/-- C5: on a document passing document-level validation in which no
artifact bears the requested name, resolution fails with
`ArtifactNotFound` and the message enumerates exactly the names of all the
document's artifacts, in document order. -/
theorem load_artifact_config_not_found (c : Config) (p nm : String)
    (hv : validate_artman_config c = none)
    (hn : ∀ a ∈ c.artifacts, a.name ≠ nm) :
    load_artifact_config c p nm =
      .error (.artifactNotFound
        (artifactNotFoundMsg nm (c.artifacts.map Artifact.name))) := by
  unfold load_artifact_config
  rw [hv]
  simpa using artifact_scan_not_found c.common p nm c.artifacts [] hn

/-- C5 (witness): resolving `x` against artifacts named `a`, `b`, `c`
fails with the message enumerating `a`, `b`, `c` in that order. -/
theorem load_artifact_config_not_found_witness :
    validate_artman_config
      { artifacts := [{ name := "a" }, { name := "b" }, { name := "c" }] } = none ∧
    load_artifact_config
      { artifacts := [{ name := "a" }, { name := "b" }, { name := "c" }] }
      "/c/a.yaml" "x" =
      .error (.artifactNotFound (artifactNotFoundMsg "x" ["a", "b", "c"])) :=
  ⟨by decide,
    load_artifact_config_not_found
      { artifacts := [{ name := "a" }, { name := "b" }, { name := "c" }] }
      "/c/a.yaml" "x" (by decide) (by decide)⟩

/-- A successful run of the `src_proto_paths` rewriting loop relates input
and output entries pointwise, in order. -/
theorem normalize_src_proto_paths_loop_ok (acp : String) :
    ∀ (l l' : List String),
      normalize_src_proto_paths_loop acp l = .ok l' →
      List.Forall₂ (fun s t => normalize_src_proto_path s acp = .ok t) l l' := by
  intro l
  induction l with
  | nil =>
    intro l' h
    simp only [normalize_src_proto_paths_loop] at h
    injection h with h
    subst h
    exact List.Forall₂.nil
  | cons x xs ih =>
    intro l' h
    unfold normalize_src_proto_paths_loop at h
    split at h
    · exact absurd h (by simp)
    · split at h
      · exact absurd h (by simp)
      · injection h with h
        subst h
        exact List.Forall₂.cons (by assumption) (ih _ (by assumption))

/-- A failing run of the `src_proto_paths` rewriting loop is caused by
some entry of the list. -/
theorem normalize_src_proto_paths_loop_error (acp : String) :
    ∀ (l : List String) (e : LoaderError),
      normalize_src_proto_paths_loop acp l = .error e →
      ∃ s ∈ l, normalize_src_proto_path s acp = .error e := by
  intro l
  induction l with
  | nil => intro e h; simp [normalize_src_proto_paths_loop] at h
  | cons x xs ih =>
    intro e h
    unfold normalize_src_proto_paths_loop at h
    split at h
    · injection h with h
      subst h
      exact ⟨x, by simp, by assumption⟩
    · split at h
      · injection h with h
        subst h
        obtain ⟨s, hs, hse⟩ := ih _ (by assumption)
        exact ⟨s, by simp [hs], hse⟩
      · exact absurd h (by simp)

/-- The concrete document of the C3 end-to-end scenario: common section
`{language: PYTHON}` and one artifact `foo` of type `GRPC` with a plain and
a `-`-excluded proto path. -/
def scenario_document : Config :=
  { common := { language := some Language.PYTHON },
    artifacts := [{ name := "foo", type := some ArtifactType.GRPC,
                    src_proto_paths := ["protos/x.proto", "-protos/y.proto"] }] }

/-- The resolved artifact of the C3 end-to-end scenario. -/
def scenario_result : Artifact :=
  { name := "foo", language := some Language.PYTHON,
    type := some ArtifactType.GRPC,
    src_proto_paths := ["/home/u/conf/protos/x.proto",
                        "-/home/u/conf/protos/y.proto"] }

/-- C3: on success, normalization rewrites the `src_proto_paths` sequence
pointwise and in order — an entry starting with the exclusion marker `-`
has its remainder normalized and the marker re-prepended, any other entry
is normalized whole — and the rewritten sequence replaces the original;
in particular the end-to-end scenario resolves `foo` to language `PYTHON`,
type `GRPC` and the two paths joined to `/home/u/conf` with the marker of
the second preserved. -/
theorem normalize_artifact_config_src_proto_paths (a : Artifact) (p : String)
    (b : Artifact) (h : normalize_artifact_config a p = .ok b) :
    List.Forall₂ (fun s t =>
        (strStartsWith s "-" = true →
          ∃ n, normalize_path (strTail s) p "src_proto_paths" = .ok n ∧
            t = "-" ++ n) ∧
        (strStartsWith s "-" = false →
          normalize_path s p "src_proto_paths" = .ok t))
      a.src_proto_paths b.src_proto_paths ∧
    load_artifact_config scenario_document "/home/u/conf/artman.yaml" "foo" =
      .ok scenario_result := by
  refine ⟨?_, by decide⟩
  have hb : ∃ spp, normalize_src_proto_paths_loop p a.src_proto_paths = .ok spp ∧
      b.src_proto_paths = spp := by
    unfold normalize_artifact_config at h
    split at h
    · exact absurd h (by simp)
    · split at h
      · exact absurd h (by simp)
      · split at h
        · exact absurd h (by simp)
        · injection h with h
          subst h
          exact ⟨_, by assumption, rfl⟩
  obtain ⟨spp, hloop, hbs⟩ := hb
  rw [hbs]
  refine List.Forall₂.imp ?_ (normalize_src_proto_paths_loop_ok p _ _ hloop)
  intro s t hst
  constructor
  · intro hm
    unfold normalize_src_proto_path at hst
    rw [hm] at hst
    simp only [if_true] at hst
    split at hst
    · exact absurd hst (by simp)
    · injection hst with hst
      exact ⟨_, by assumption, hst.symm⟩
  · intro hm
    unfold normalize_src_proto_path at hst
    rw [hm] at hst
    simpa using hst

/-- C3 (witness): the pointwise rewriting relation evaluated on the merged
artifact of the end-to-end scenario. -/
theorem normalize_artifact_config_src_proto_paths_witness :
    normalize_artifact_config
      { name := "foo", language := some Language.PYTHON,
        type := some ArtifactType.GRPC,
        src_proto_paths := ["protos/x.proto", "-protos/y.proto"] }
      "/home/u/conf/artman.yaml" = .ok scenario_result ∧
    List.Forall₂ (fun s t =>
        (strStartsWith s "-" = true →
          ∃ n, normalize_path (strTail s) "/home/u/conf/artman.yaml"
              "src_proto_paths" = .ok n ∧ t = "-" ++ n) ∧
        (strStartsWith s "-" = false →
          normalize_path s "/home/u/conf/artman.yaml" "src_proto_paths" = .ok t))
      ["protos/x.proto", "-protos/y.proto"]
      scenario_result.src_proto_paths :=
  ⟨by decide,
    (normalize_artifact_config_src_proto_paths
      { name := "foo", language := some Language.PYTHON,
        type := some ArtifactType.GRPC,
        src_proto_paths := ["protos/x.proto", "-protos/y.proto"] }
      "/home/u/conf/artman.yaml" scenario_result (by decide)).1⟩

/-- C10: an unset (`""`) `service_yaml` (respectively `gapic_yaml`) is
skipped by normalization: on success it stays empty rather than being
joined to the config directory, and any normalization failure is caused by
the other yaml field (only when that one is set) or by some
`src_proto_paths` entry — never by the unset field. -/
theorem normalize_artifact_config_skips_unset (a : Artifact) (p : String) :
    (a.service_yaml = "" →
      (∀ b, normalize_artifact_config a p = .ok b → b.service_yaml = "") ∧
      (∀ e, normalize_artifact_config a p = .error e →
        (a.gapic_yaml ≠ "" ∧ normalize_path a.gapic_yaml p "gapic_yaml" = .error e) ∨
        ∃ s ∈ a.src_proto_paths, normalize_src_proto_path s p = .error e)) ∧
    (a.gapic_yaml = "" →
      (∀ b, normalize_artifact_config a p = .ok b → b.gapic_yaml = "") ∧
      (∀ e, normalize_artifact_config a p = .error e →
        (a.service_yaml ≠ "" ∧
          normalize_path a.service_yaml p "service_yaml" = .error e) ∨
        ∃ s ∈ a.src_proto_paths, normalize_src_proto_path s p = .error e)) := by
  constructor
  · intro hs
    constructor
    · intro b h
      unfold normalize_artifact_config at h
      rw [hs] at h
      simp only [ne_eq, not_true_eq_false, ite_false, if_neg] at h
      split at h
      · exact absurd h (by simp)
      · split at h
        · exact absurd h (by simp)
        · injection h with h
          subst h
          rfl
    · intro e h
      unfold normalize_artifact_config at h
      rw [hs] at h
      simp only [ne_eq, not_true_eq_false, ite_false, if_neg] at h
      split at h
      · rename_i heq
        split at heq
        · injection h with h
          subst h
          exact Or.inl ⟨by assumption, heq⟩
        · exact absurd heq (by simp)
      · split at h
        · injection h with h
          subst h
          exact Or.inr (normalize_src_proto_paths_loop_error p _ _ (by assumption))
        · exact absurd h (by simp)
  · intro hg
    constructor
    · intro b h
      unfold normalize_artifact_config at h
      rw [hg] at h
      split at h
      · exact absurd h (by simp)
      · simp only [ne_eq, not_true_eq_false, ite_false, if_neg] at h
        split at h
        · exact absurd h (by simp)
        · injection h with h
          subst h
          rfl
    · intro e h
      unfold normalize_artifact_config at h
      rw [hg] at h
      split at h
      · rename_i heq
        split at heq
        · injection h with h
          subst h
          exact Or.inl ⟨by assumption, heq⟩
        · exact absurd heq (by simp)
      · simp only [ne_eq, not_true_eq_false, ite_false, if_neg] at h
        split at h
        · injection h with h
          subst h
          exact Or.inr (normalize_src_proto_paths_loop_error p _ _ (by assumption))
        · exact absurd h (by simp)

/-- C10 (witness): with both yaml fields unset, the resolved config keeps
them empty and untouched. -/
theorem normalize_artifact_config_skips_unset_witness :
    ({ name := "foo", src_proto_paths := ["p"] } : Artifact).service_yaml = "" ∧
    (∀ b, normalize_artifact_config { name := "foo", src_proto_paths := ["p"] }
        "/c/a.yaml" = .ok b → b.service_yaml = "") ∧
    (∀ b, normalize_artifact_config { name := "foo", src_proto_paths := ["p"] }
        "/c/a.yaml" = .ok b → b.gapic_yaml = "") :=
  ⟨by decide,
    ((normalize_artifact_config_skips_unset
      { name := "foo", src_proto_paths := ["p"] } "/c/a.yaml").1 (by decide)).1,
    ((normalize_artifact_config_skips_unset
      { name := "foo", src_proto_paths := ["p"] } "/c/a.yaml").2 (by decide)).1⟩

/-- The inner validation loop accepts exactly when the artifact's target
names are pairwise distinct and none of them is among the already-seen
names. -/
theorem validate_publish_targets_none_iff (an : String) :
    ∀ (ts : List PublishTarget) (seen : List String),
      validate_publish_targets an ts seen = none ↔
        ((ts.map PublishTarget.name).Nodup ∧
          ∀ n ∈ ts.map PublishTarget.name, n ∉ seen) := by
  intro ts
  induction ts with
  | nil => intro seen; simp [validate_publish_targets]
  | cons t rest ih =>
    intro seen
    unfold validate_publish_targets
    by_cases ht : t.name ∈ seen
    · rw [if_pos ht]
      simp only [List.map_cons, List.nodup_cons, List.forall_mem_cons]
      constructor
      · intro h; exact absurd h (by simp)
      · rintro ⟨-, hns, -⟩
        exact absurd ht hns
    · rw [if_neg ht, ih (t.name :: seen)]
      simp only [List.map_cons, List.nodup_cons, List.forall_mem_cons]
      constructor
      · rintro ⟨hnd, hall⟩
        refine ⟨⟨?_, hnd⟩, ht, ?_⟩
        · intro hmem
          exact hall _ hmem (by simp)
        · intro n hn hns
          exact hall n hn (by simp [hns])
      · rintro ⟨⟨hmem, hnd⟩, -, hall⟩
        refine ⟨hnd, ?_⟩
        intro n hn hcons
        rcases List.mem_cons.mp hcons with he | hseen
        · exact hmem (he ▸ hn)
        · exact hall n hn hseen

/-- The outer validation loop accepts exactly when the artifact names are
pairwise distinct, disjoint from the already-seen names, and each
artifact's target names are pairwise distinct. -/
theorem validate_artifacts_loop_none_iff :
    ∀ (arts : List Artifact) (seen : List String),
      validate_artifacts_loop arts seen = none ↔
        ((arts.map Artifact.name).Nodup ∧
          (∀ n ∈ arts.map Artifact.name, n ∉ seen) ∧
          ∀ a ∈ arts, (a.publish_targets.map PublishTarget.name).Nodup) := by
  intro arts
  induction arts with
  | nil => intro seen; simp [validate_artifacts_loop]
  | cons a rest ih =>
    intro seen
    unfold validate_artifacts_loop
    by_cases ha : a.name ∈ seen
    · rw [if_pos ha]
      constructor
      · intro h; exact absurd h (by simp)
      · rintro ⟨-, hall, -⟩
        exact absurd ha (hall a.name (by simp))
    · rw [if_neg ha]
      cases hv : validate_publish_targets a.name a.publish_targets [] with
      | some m =>
        constructor
        · intro h; exact absurd h (by simp)
        · rintro ⟨-, -, htg⟩
          have hnone := (validate_publish_targets_none_iff a.name
            a.publish_targets []).mpr ⟨htg a (by simp), by simp⟩
          rw [hv] at hnone
          exact absurd hnone (by simp)
      | none =>
        rw [ih (a.name :: seen)]
        have hta : (a.publish_targets.map PublishTarget.name).Nodup :=
          ((validate_publish_targets_none_iff a.name a.publish_targets []).mp hv).1
        simp only [List.map_cons, List.nodup_cons, List.forall_mem_cons]
        constructor
        · rintro ⟨hnd, hall, htg⟩
          refine ⟨⟨?_, hnd⟩, ⟨ha, ?_⟩, hta, htg⟩
          · intro hmem
            exact hall _ hmem (by simp)
          · intro n hn hns
            exact hall n hn (by simp [hns])
        · rintro ⟨⟨hmem, hnd⟩, ⟨-, hall⟩, -, htg⟩
          refine ⟨hnd, ?_, htg⟩
          intro n hn hcons
          rcases List.mem_cons.mp hcons with he | hseen
          · exact hmem (he ▸ hn)
          · exact hall n hn hseen

/-- A violation reported by the inner loop is the duplicate-target message
for a target name that is among the already-seen names or occurs at least
twice in the artifact's target names. -/
theorem validate_publish_targets_some (an : String) :
    ∀ (ts : List PublishTarget) (seen : List String) (m : String),
      validate_publish_targets an ts seen = some m →
      ∃ t, m = dupTargetMsg t an ∧ t ∈ ts.map PublishTarget.name ∧
        (t ∈ seen ∨ 2 ≤ (ts.map PublishTarget.name).count t) := by
  intro ts
  induction ts with
  | nil => intro seen m h; simp [validate_publish_targets] at h
  | cons t rest ih =>
    intro seen m h
    unfold validate_publish_targets at h
    by_cases ht : t.name ∈ seen
    · rw [if_pos ht] at h
      injection h with h
      exact ⟨t.name, h.symm, by simp, Or.inl ht⟩
    · rw [if_neg ht] at h
      obtain ⟨t', hm, hmem, hcase⟩ := ih (t.name :: seen) m h
      refine ⟨t', hm, by simp [hmem], ?_⟩
      rcases hcase with hseen | hcount
      · rcases List.mem_cons.mp hseen with he | hs
        · subst he
          right
          rw [List.map_cons, List.count_cons_self]
          have h1 : 1 ≤ (rest.map PublishTarget.name).count t.name :=
            List.one_le_count_iff.mpr hmem
          omega
        · exact Or.inl hs
      · right
        rw [List.map_cons, List.count_cons]
        exact le_trans hcount (Nat.le_add_right _ _)

/-- A violation reported by the outer loop is either the duplicate-artifact
message for a name already seen or occurring at least twice among the
artifact names, or the duplicate-target message for a target name occurring
at least twice within one artifact of the list. -/
theorem validate_artifacts_loop_some :
    ∀ (arts : List Artifact) (seen : List String) (m : String),
      validate_artifacts_loop arts seen = some m →
        (∃ n, m = dupArtifactMsg n ∧ n ∈ arts.map Artifact.name ∧
          (n ∈ seen ∨ 2 ≤ (arts.map Artifact.name).count n)) ∨
        (∃ a ∈ arts, ∃ t, m = dupTargetMsg t a.name ∧
          2 ≤ (a.publish_targets.map PublishTarget.name).count t) := by
  intro arts
  induction arts with
  | nil => intro seen m h; simp [validate_artifacts_loop] at h
  | cons a rest ih =>
    intro seen m h
    unfold validate_artifacts_loop at h
    by_cases ha : a.name ∈ seen
    · rw [if_pos ha] at h
      injection h with h
      exact Or.inl ⟨a.name, h.symm, by simp, Or.inl ha⟩
    · rw [if_neg ha] at h
      cases hv : validate_publish_targets a.name a.publish_targets [] with
      | some m' =>
        rw [hv] at h
        injection h with h
        subst h
        obtain ⟨t, hm, -, hcase⟩ :=
          validate_publish_targets_some a.name a.publish_targets [] m' hv
        rcases hcase with hin | hcount
        · exact absurd hin (by simp)
        · exact Or.inr ⟨a, by simp, t, hm, hcount⟩
      | none =>
        rw [hv] at h
        rcases ih (a.name :: seen) m h with ⟨n, hm, hmem, hcase⟩ | ⟨a', ha', rest'⟩
        · refine Or.inl ⟨n, hm, by simp [hmem], ?_⟩
          rcases hcase with hcons | hcount
          · rcases List.mem_cons.mp hcons with he | hseen
            · subst he
              right
              rw [List.map_cons, List.count_cons_self]
              have h1 : 1 ≤ (rest.map Artifact.name).count a.name :=
                List.one_le_count_iff.mpr hmem
              omega
            · exact Or.inl hseen
          · right
            rw [List.map_cons, List.count_cons]
            exact le_trans hcount (Nat.le_add_right _ _)
        · exact Or.inr ⟨a', by simp [ha'], rest'⟩

/-- C4: document-level validation returns a non-null message exactly when
some artifact name is duplicated or some publish-target name is duplicated
within a single artifact (exact string equality); a returned message is the
duplicate-artifact message for a name occurring at least twice, or the
duplicate-target message for a target name occurring at least twice within
one artifact; the resolver raises `InvalidConfig` with the returned message
before any artifact-level work; the check proceeds in document order with
the artifact-name check preceding the target check, the first violation
winning. -/
theorem validate_artman_config_spec (c : Config) :
    (validate_artman_config c = none ↔
      ((c.artifacts.map Artifact.name).Nodup ∧
        ∀ a ∈ c.artifacts, (a.publish_targets.map PublishTarget.name).Nodup)) ∧
    (∀ m, validate_artman_config c = some m →
      (∃ n, m = dupArtifactMsg n ∧
        2 ≤ (c.artifacts.map Artifact.name).count n) ∨
      (∃ a ∈ c.artifacts, ∃ t, m = dupTargetMsg t a.name ∧
        2 ≤ (a.publish_targets.map PublishTarget.name).count t)) ∧
    (∀ m, validate_artman_config c = some m → ∀ p nm,
      load_artifact_config c p nm = .error (.invalidConfig m)) ∧
    (∀ (cm a : Artifact) (rest : List Artifact) (m : String),
      validate_publish_targets a.name a.publish_targets [] = some m →
      validate_artman_config ⟨cm, a :: rest⟩ = some m) ∧
    (∀ (seen : List String) (a : Artifact) (rest : List Artifact),
      a.name ∈ seen →
      validate_artifacts_loop (a :: rest) seen =
        some (dupArtifactMsg a.name)) := by
  refine ⟨?_, ?_, ?_, ?_, ?_⟩
  · rw [validate_artman_config, validate_artifacts_loop_none_iff]
    simp
  · intro m h
    rcases validate_artifacts_loop_some c.artifacts [] m h with
      ⟨n, hm, -, hcase⟩ | hr
    · rcases hcase with hin | hcount
      · exact absurd hin (by simp)
      · exact Or.inl ⟨n, hm, hcount⟩
    · exact Or.inr hr
  · intro m h p nm
    unfold load_artifact_config
    rw [h]
  · intro cm a rest m hv
    unfold validate_artman_config validate_artifacts_loop
    rw [if_neg (by simp), hv]
  · intro seen a rest ha
    unfold validate_artifacts_loop
    rw [if_pos ha]

/-- C4 (witness): a document with two artifacts both named `a` fails
validation with the duplicate-artifact message, which characterizes the
duplication and is raised as `InvalidConfig` by the resolver. -/
theorem validate_artman_config_spec_witness :
    validate_artman_config { artifacts := [{ name := "a" }, { name := "a" }] } =
      some (dupArtifactMsg "a") ∧
    ((∃ n, dupArtifactMsg "a" = dupArtifactMsg n ∧
        2 ≤ (({ artifacts := [{ name := "a" }, { name := "a" }] } : Config).artifacts.map
          Artifact.name).count n) ∨
      (∃ a ∈ ({ artifacts := [{ name := "a" }, { name := "a" }] } : Config).artifacts,
        ∃ t, dupArtifactMsg "a" = dupTargetMsg t a.name ∧
          2 ≤ (a.publish_targets.map PublishTarget.name).count t)) ∧
    load_artifact_config { artifacts := [{ name := "a" }, { name := "a" }] }
      "/c/a.yaml" "x" = .error (.invalidConfig (dupArtifactMsg "a")) :=
  ⟨by decide,
    (validate_artman_config_spec
      { artifacts := [{ name := "a" }, { name := "a" }] }).2.1
      (dupArtifactMsg "a") (by decide),
    (validate_artman_config_spec
      { artifacts := [{ name := "a" }, { name := "a" }] }).2.2.1
      (dupArtifactMsg "a") (by decide) "/c/a.yaml" "x"⟩

end Artman
